import Mathlib

/-!
Verification of the SysML_project backend's diagram pipeline.

The definitions below are a shallow embedding of the Python sources:
 * `backend/app/AI/diagram_generation.py` (`DiagramPositioning` and
   `apply_positioning`) — validation/repair, level assignment and layout;
 * `backend/app/database/embeddings.py` (`optimize_diagram_json`) — the
   nodes/edges → elements/relationships normalizer;
 * `backend/app/database/rag_router.py` (the `bdd_enhanced` branch of
   `generate_diagram_with_context`) — IBD extraction;
 * `backend/app/crud/crud_ibd.py` (`get_ibd_by_block_id`) — IBD retrieval.

Python JSON dicts are embedded as Lean structures whose fields are the keys
the embedded code reads or writes; `none` models an absent key (or a JSON
`null` value, which `dict.get` does not distinguish from an absent key).
Python truthiness of optional strings (`not s`) is `strFalsy`.
-/

namespace SysML

/-! ## Positioning constants (`DiagramPositioning`) -/

def Y_SPACING : Int := 200

def BASE_Y : Int := 0

def ELEMENT_X_SPACING : Int := 300

/-- `DiagramPositioning.get_x_position`. -/
def get_x_position (index_in_level : Nat) : Int :=
  (index_in_level : Int) * ELEMENT_X_SPACING

/-- `DiagramPositioning.get_y_position`. -/
def get_y_position (level_index : Int) : Int :=
  BASE_Y + level_index * Y_SPACING

/-! ## Data model of the diagram JSON handled by `apply_positioning` -/

structure Point where
  x : Int
  y : Int
deriving Repr, DecidableEq

/-- An element dict: the keys the positioning code reads or writes.  The
`position` dict is modelled by its `x`/`y` pair, which the code overwrites
wholesale. -/
structure Element where
  id : Option String := none
  type : Option String := none
  name : Option String := none
  description : Option String := none
  position : Option Point := none
deriving Repr, DecidableEq

/-- A relationship dict. -/
structure Rel where
  source_id : Option String := none
  target_id : Option String := none
  type : Option String := none
  name : Option String := none
deriving Repr, DecidableEq

/-- Python truthiness test `not v` for an optional string value: true when the
key is absent (or `None`) or the string is empty. -/
def strFalsy : Option String → Bool
  | none => true
  | some s => s = ""

/-- The top-level diagram dict.  `extra` records whether the dict carries keys
beyond the three modelled ones; it matters only for Python truthiness of the
dict itself. -/
structure DiagramObj where
  diagram_type : Option String := none
  elements : Option (List Element) := none
  relationships : Option (List Rel) := none
  extra : Bool := false
deriving Repr, DecidableEq

/-- The argument of `apply_positioning`: either not a dict at all (only its
truthiness is relevant, the code never inspects such a value further), or a
diagram dict. -/
inductive DiagramData where
  | invalid (truthy : Bool)
  | dict (obj : DiagramObj)
deriving Repr, DecidableEq

/-- Python truthiness of the diagram dict: an empty dict is falsy. -/
def DiagramObj.falsy (o : DiagramObj) : Bool :=
  o.diagram_type.isNone && o.elements.isNone && o.relationships.isNone && !o.extra

/-- The fallback `{"diagram_type": "block", "elements": [], "relationships": []}`
returned for falsy input (`diagram_data or {...}` with `diagram_data` falsy). -/
def defaultDiagram : DiagramData :=
  .dict { diagram_type := some "block", elements := some [], relationships := some [],
          extra := false }

/-- The id-repair loop (`diagram_generation.py` lines 66-69) with the running
index of `enumerate(elements)` made explicit: the element at overall 0-based
index `i` whose `id` is falsy receives `element-<i+1>`. -/
def assignIdsFrom (i : Nat) : List Element → List Element
  | [] => []
  | e :: rest =>
    (if strFalsy e.id then { e with id := some ("element-" ++ toString (i + 1)) } else e) ::
      assignIdsFrom (i + 1) rest

/-- The id-repair loop, starting the enumeration at 0. -/
def assignIds (elements : List Element) : List Element :=
  assignIdsFrom 0 elements

/-- The relationship validity test (lines 80-99): both endpoint ids truthy and
present among the element ids (`element_map` keys). -/
def relValid (element_map : List String) (rel : Rel) : Bool :=
  !strFalsy rel.source_id && !strFalsy rel.target_id &&
    element_map.contains (rel.source_id.getD "") && element_map.contains (rel.target_id.getD "")

/-- The level assignment (lines 106-124): pure targets level -1, mixed level 0,
pure sources level 1, unconnected level 0.  `src`/`tgt` are the source/target
id sets collected from the valid relationships. -/
def levelIndex (src tgt : List String) (id : String) : Int :=
  if tgt.contains id && !src.contains id then -1
  else if tgt.contains id && src.contains id then 0
  else if src.contains id && !tgt.contains id then 1
  else 0

/-- The positioning loop (lines 133-157).  `counts` is the `level_counts`
dict, modelled as a total function defaulting to 0 (the code initialises
every used level to 0 before counting).  Elements with a falsy id are skipped
(`continue`), matching the source. -/
def posLoop (src tgt : List String) : List Element → (Int → Nat) → List Element
  | [], _ => []
  | e :: rest, counts =>
    if strFalsy e.id then e :: posLoop src tgt rest counts
    else
      let lvl := levelIndex src tgt (e.id.getD "")
      { e with position := some ⟨get_x_position (counts lvl), get_y_position lvl⟩ } ::
        posLoop src tgt rest (fun l => if l = lvl then counts l + 1 else counts l)

/-- The keys of `element_map` (line 72): the ids of the (repaired) elements. -/
def elementMapOf (es : List Element) : List String := es.filterMap (·.id)

/-- `valid_relationships` (lines 79-104). -/
def validRelsOf (es : List Element) (rels : List Rel) : List Rel :=
  rels.filter (relValid (elementMapOf es))

/-- `source_elements` (line 100): source ids of the valid relationships. -/
def srcOf (rels : List Rel) : List String := rels.filterMap (·.source_id)

/-- `target_elements` (line 101): target ids of the valid relationships. -/
def tgtOf (rels : List Rel) : List String := rels.filterMap (·.target_id)

/-- `DiagramPositioning.apply_positioning`.  The `try`/`except` wrapper never
fires in this embedding: all the operations modelled are total.  Branches, in
source order: falsy or non-dict input (lines 51-53), missing/empty `elements`
(lines 60-63), then id repair, relationship validation, level assignment and
positioning. -/
def apply_positioning : DiagramData → DiagramData
  | .invalid truthy => if truthy then .invalid true else defaultDiagram
  | .dict obj =>
    if obj.falsy then defaultDiagram
    else
      let elements := obj.elements.getD []
      let relationships := obj.relationships.getD []
      if elements.isEmpty then .dict { obj with elements := some [] }
      else
        let repaired := assignIds elements
        let valid_relationships := validRelsOf repaired relationships
        .dict { obj with
                elements := some (posLoop (srcOf valid_relationships)
                  (tgtOf valid_relationships) repaired (fun _ => 0)),
                relationships := some valid_relationships }

/-- The elements list of a diagram value (`.get("elements", [])`). -/
def DiagramData.getElements : DiagramData → List Element
  | .invalid _ => []
  | .dict obj => obj.elements.getD []

/-- The relationships list of a diagram value (`.get("relationships", [])`). -/
def DiagramData.getRelationships : DiagramData → List Rel
  | .invalid _ => []
  | .dict obj => obj.relationships.getD []

/-! ## `optimize_diagram_json` (`backend/app/database/embeddings.py` lines 34-88)

The nodes/edges shape.  Property values are an arbitrary type `α`, copied
verbatim by the code; `node["id"]`, `node["type"]` and `node["data"]` are
indexed directly (a missing key would raise), so they are required fields. -/

structure NodeData (α : Type) where
  label : Option String := none
  description : Option String := none
  properties : Option (List (String × α)) := none
deriving Repr, DecidableEq

structure BNode (α : Type) where
  id : String
  type : String
  data : NodeData α
deriving Repr, DecidableEq

/-- The `edge["data"]` dict: its `name` key, plus whether it has other keys
(relevant only for the dict's truthiness). -/
structure EdgeData where
  name : Option String := none
  extra : Bool := false
deriving Repr, DecidableEq

structure BEdge where
  source : String
  target : String
  type : String
  data : Option EdgeData := none
  label : Option String := none
deriving Repr, DecidableEq

/-- An output element of the optimizer. -/
structure OptElement (α : Type) where
  id : String
  type : String
  name : String
  description : String
  properties : List (String × α)
deriving Repr, DecidableEq

/-- An output relationship of the optimizer; the `name` key is only added
when the source finds one. -/
structure OptRel where
  source_id : String
  target_id : String
  type : String
  name : Option String := none
deriving Repr, DecidableEq

/-- Input of `optimize_diagram_json`: the `nodes`/`edges` keys may be absent. -/
structure RawBDiagram (α : Type) where
  nodes : Option (List (BNode α)) := none
  edges : Option (List BEdge) := none
deriving Repr, DecidableEq

structure OptimizedDiagram (α : Type) where
  diagram_type : String
  elements : List (OptElement α)
  relationships : List OptRel
deriving Repr, DecidableEq

/-- Python truthiness of the `edge["data"]` dict: nonempty. -/
def edgeDataTruthy (d : EdgeData) : Bool :=
  d.name.isSome || d.extra

/-- `"data" in edge and edge["data"] and "name" in edge["data"]`. -/
def edgeHasDataName (edge : BEdge) : Bool :=
  match edge.data with
  | none => false
  | some d => edgeDataTruthy d && d.name.isSome

/-- `"label" in edge and edge["label"]`. -/
def edgeLabelTruthy (edge : BEdge) : Bool :=
  match edge.label with
  | none => false
  | some s => s ≠ ""

/-- The `name` key added to a relationship, if any (lines 81-84). -/
def edgeName (edge : BEdge) : Option String :=
  if edgeHasDataName edge then edge.data.bind (·.name)
  else if edgeLabelTruthy edge then edge.label
  else none

/-- `optimize_diagram_json`. -/
def optimize_diagram_json {α : Type} (diagram_json : RawBDiagram α) : OptimizedDiagram α :=
  { diagram_type := "block"
    elements := (diagram_json.nodes.getD []).map fun node =>
      { id := node.id
        type := node.type
        name := node.data.label.getD ""
        description := node.data.description.getD ""
        properties :=
          match node.data.properties with
          | some props => props.filter fun kv => kv.1 != "id" || kv.1 == "name"
          | none => [] }
    relationships := (diagram_json.edges.getD []).map fun edge =>
      { source_id := edge.source
        target_id := edge.target
        type := edge.type
        name := edgeName edge } }

/-! ## IBD extraction (`backend/app/database/rag_router.py` lines 186-210)

The `bdd_enhanced` branch of `generate_diagram_with_context`: walk the raw
diagram's elements, strip each `internal_diagram`, set `data["has_ibd"]` and
collect one IBD-creation record per stripped element.  The nested `nodes` and
`edges` payloads are copied verbatim, so they are arbitrary types `ν`/`ε`. -/

structure InternalDiag (ν ε : Type) where
  nodes : Option (List ν) := none
  edges : Option (List ε) := none
deriving Repr, DecidableEq

/-- The `element["data"]` dict as far as this code touches it. -/
structure ElemData where
  has_ibd : Option Bool := none
deriving Repr, DecidableEq

/-- A raw element of the enhanced diagram: the keys this loop reads/writes. -/
structure RawElement (ν ε : Type) where
  id : Option String := none
  data : Option ElemData := none
  internal_diagram : Option (InternalDiag ν ε) := none
deriving Repr, DecidableEq

/-- One entry of `ibd_to_create`. -/
structure IbdCreate (ν ε : Type) where
  parent_block_id : String
  nodes : List ν
  edges : List ε
deriving Repr, DecidableEq

/-- The extraction loop.  `none` models the `KeyError` raised by
`element["id"]` when an element carrying `internal_diagram` has no id key
(the surrounding `try` would turn it into an error result). -/
def ibdExtractLoop {ν ε : Type} :
    List (RawElement ν ε) → Option (List (RawElement ν ε) × List (IbdCreate ν ε))
  | [] => some ([], [])
  | e :: rest =>
    match e.internal_diagram with
    | none => (ibdExtractLoop rest).map fun p => (e :: p.1, p.2)
    | some idg =>
      match e.id with
      | none => none
      | some pid =>
        (ibdExtractLoop rest).map fun p =>
          ({ e with data := some { (e.data.getD {}) with has_ibd := some true },
                    internal_diagram := none } :: p.1,
           { parent_block_id := pid,
             nodes := idg.nodes.getD [],
             edges := idg.edges.getD [] } :: p.2)

/-! ## IBD retrieval (`backend/app/crud/crud_ibd.py` lines 32-42)

The stored IBD table is modelled as a list of rows in database order; the
query has no `order_by`, and `.scalars().first()` takes the first returned
row.  `get_ibd_by_block_id` backs `GET /diagrams/ibd/{parent_block_id}`
(`backend/app/diagrams/ibd_router.py`). -/

structure IBDRecord (ν ε : Type) where
  id : Nat
  parent_bdd_diagram_id : Nat
  parent_block_id : String
  nodes : List ν := []
  edges : List ε := []
  source : String := "ai"
deriving Repr, DecidableEq

/-- `get_ibd_by_block_id`: filter by `parent_block_id` alone, take the first. -/
def get_ibd_by_block_id {ν ε : Type} (store : List (IBDRecord ν ε)) (block_id : String) :
    Option (IBDRecord ν ε) :=
  (store.filter fun r => r.parent_block_id == block_id).head?

/-! ## Auxiliary definitions used only in statements and proofs -/

/-- Decimal digit characters of `n`, most significant first.  This is the
mathematical reading of `Nat.repr`; the file proves `Nat.toDigits 10 n`
equals it, which yields injectivity of the `element-<i+1>` id strings. -/
def repDigits (n : Nat) : List Char :=
  if _h : n < 10 then [Nat.digitChar n]
  else repDigits (n / 10) ++ [Nat.digitChar (n % 10)]
decreasing_by exact Nat.div_lt_self (by omega) (by omega)

/-- Numeric value of a decimal digit character. -/
def digitVal (c : Char) : Nat := c.toNat - 48

/-- The level of an element, read off its id. -/
def lvlOf (src tgt : List String) (e : Element) : Int :=
  levelIndex src tgt (e.id.getD "")

/-- How many elements of `es` occupy level `l` (elements with a falsy id are
skipped by the positioning loop and do not count). -/
def countAt (src tgt : List String) (l : Int) (es : List Element) : Nat :=
  (es.filter fun e => !strFalsy e.id && lvlOf src tgt e == l).length

/-- The shape the spec's failure policy promises for malformed input: a
`diagram_type` tag, an empty `elements` list and an empty `relationships`
list. -/
def isEmptyWellFormed : DiagramData → Bool
  | .invalid _ => false
  | .dict obj => obj.diagram_type.isSome && obj.elements == some [] && obj.relationships == some []

/-- Modelled from the spec (shape (b) node mapping): `node.id`, `node.type`,
`node.data.label` → `name`, `node.data.description` → `description`, and
`node.data.properties` → `properties` flattened, excluding a redundant `id`
key unless it is literally named `name`. -/
def spec_elementOfNode {α : Type} (node : BNode α) : OptElement α :=
  { id := node.id
    type := node.type
    name := node.data.label.getD ""
    description := node.data.description.getD ""
    properties := (node.data.properties.getD []).filter fun kv => kv.1 == "name" || kv.1 != "id" }

/-- Modelled from the spec (shape (b) edge mapping): `edge.source` →
`source_id`, `edge.target` → `target_id`, `edge.type` → `type`, and
`edge.data.name` or `edge.label` (in that preference order, a missing or
empty label counting as absent) → `name`. -/
def spec_relationOfEdge (edge : BEdge) : OptRel :=
  { source_id := edge.source
    target_id := edge.target
    type := edge.type
    name :=
      match edge.data.bind (·.name) with
      | some nm => some nm
      | none => if edgeLabelTruthy edge then edge.label else none }

/-- The per-element effect C9 claims for enhanced mode: drop the
`internal_diagram` key and set the boolean has-IBD flag, other elements
untouched. -/
def specStripIbd {ν ε : Type} (e : RawElement ν ε) : RawElement ν ε :=
  match e.internal_diagram with
  | none => e
  | some _ =>
    { e with data := some { (e.data.getD {}) with has_ibd := some true },
             internal_diagram := none }

/-- The IBD record C9 claims is emitted for an element carrying
`internal_diagram`: keyed by the element's id, nested nodes/edges verbatim,
defaulting to empty. -/
def specIbdRecord {ν ε : Type} (e : RawElement ν ε) : Option (IbdCreate ν ε) :=
  e.internal_diagram.map fun idg =>
    { parent_block_id := e.id.getD "",
      nodes := idg.nodes.getD [],
      edges := idg.edges.getD [] }

/-! Concrete inputs for scenario parts, witnesses and counterexamples. -/

/-- The spec's scenario: `elements=[{id:"a"},{id:"b"}]`,
`relationships=[{source_id:"a",target_id:"b"}]`. -/
def scenarioAB : DiagramData :=
  .dict { elements := some [{ id := some "a" }, { id := some "b" }],
          relationships := some [{ source_id := some "a", target_id := some "b" }] }

/-- A diagram whose levels have sizes 3 (sources a, b, c) and 1 (sink d). -/
def scenario31 : DiagramData :=
  .dict { elements := some [{ id := some "a" }, { id := some "b" }, { id := some "c" },
                            { id := some "d" }],
          relationships := some
            [{ source_id := some "a", target_id := some "d" },
             { source_id := some "b", target_id := some "d" },
             { source_id := some "c", target_id := some "d" }] }

end SysML

namespace SysML

/-! ## Helper lemmas: decimal id strings

`Nat.repr` (which `toString` on `Nat` unfolds to) agrees with `repDigits`,
and `repDigits` is injective; hence the generated `element-<i+1>` ids are
pairwise distinct and nonempty. -/

theorem toDigitsCore_eq_repDigits :
    ∀ (f n : Nat) (l : List Char), n < f →
      Nat.toDigitsCore 10 f n l = repDigits n ++ l := by
  intro f
  induction f with
  | zero => intro n l h; omega
  | succ f ih =>
    intro n l h
    rw [repDigits]
    simp only [Nat.toDigitsCore]
    by_cases h10 : n < 10
    · have hdiv : n / 10 = 0 := by omega
      have hmod : n % 10 = n := by omega
      simp [hdiv, hmod, h10]
    · have hdiv : ¬ (n / 10 = 0) := by omega
      rw [if_neg hdiv, dif_neg h10, ih (n / 10) _ (by omega), List.append_assoc,
        List.singleton_append]

theorem toDigits_eq_repDigits (n : Nat) : Nat.toDigits 10 n = repDigits n := by
  have h := toDigitsCore_eq_repDigits (n + 1) n [] (Nat.lt_succ_self n)
  simpa [Nat.toDigits] using h

theorem digitVal_digitChar : ∀ d < 10, digitVal (Nat.digitChar d) = d := by decide

theorem foldl_repDigits (n : Nat) :
    ∀ a : Nat, (repDigits n).foldl (fun acc c => acc * 10 + digitVal c) a
      = a * 10 ^ (repDigits n).length + n := by
  induction n using Nat.strong_induction_on with
  | _ n ih =>
    intro a
    rw [repDigits]
    by_cases h10 : n < 10
    · rw [dif_pos h10]
      simp [digitVal_digitChar n h10]
    · rw [dif_neg h10, List.foldl_append, ih (n / 10) (by omega) a]
      simp only [List.foldl, List.length_append, List.length_singleton]
      rw [digitVal_digitChar (n % 10) (by omega), pow_succ, ← mul_assoc]
      generalize a * 10 ^ (repDigits (n / 10)).length = Y
      omega

theorem repDigits_injective {m n : Nat} (h : repDigits m = repDigits n) : m = n := by
  have hm := foldl_repDigits m 0
  have hn := foldl_repDigits n 0
  rw [h, hn] at hm
  omega

theorem natRepr_data (n : Nat) : (Nat.repr n).data = repDigits n := by
  rw [show (Nat.repr n).data = Nat.toDigits 10 n from rfl, toDigits_eq_repDigits]

theorem natRepr_injective {m n : Nat} (h : Nat.repr m = Nat.repr n) : m = n := by
  apply repDigits_injective
  rw [← natRepr_data, ← natRepr_data, h]

theorem elementIdString_injective {i j : Nat}
    (h : "element-" ++ toString i = "element-" ++ toString j) : i = j := by
  have hd := congrArg String.data h
  rw [String.data_append, String.data_append] at hd
  have hc := List.append_cancel_left hd
  exact repDigits_injective
    (by rwa [show (toString i).data = repDigits i from natRepr_data i,
             show (toString j).data = repDigits j from natRepr_data j] at hc)

theorem elementIdString_ne_empty (s : String) : ("element-" ++ s) ≠ "" := by
  intro h
  have hd := congrArg String.data h
  rw [String.data_append,
    show ("element-").data = ['e', 'l', 'e', 'm', 'e', 'n', 't', '-'] from rfl] at hd
  simp at hd

/-! ## Helper lemmas: id repair -/

theorem strFalsy_some (s : String) : strFalsy (some s) = decide (s = "") := rfl

theorem assignIdsFrom_length (i : Nat) (es : List Element) :
    (assignIdsFrom i es).length = es.length := by
  induction es generalizing i with
  | nil => rfl
  | cons e rest ih => simp [assignIdsFrom, ih]

theorem assignIdsFrom_getElem? (i j : Nat) (es : List Element) (e : Element)
    (h : es[j]? = some e) :
    (assignIdsFrom i es)[j]? = some
      (if strFalsy e.id then { e with id := some ("element-" ++ toString (i + j + 1)) }
       else e) := by
  induction es generalizing i j with
  | nil => simp at h
  | cons hd tl ih =>
    cases j with
    | zero =>
      simp only [List.getElem?_cons_zero, Option.some_inj] at h
      subst h
      simp [assignIdsFrom]
    | succ j =>
      simp only [List.getElem?_cons_succ] at h
      simp only [assignIdsFrom, List.getElem?_cons_succ]
      rw [ih (i + 1) j h, show i + 1 + j + 1 = i + (j + 1) + 1 from by omega]

theorem assignIdsFrom_id_not_falsy (i : Nat) (es : List Element) :
    ∀ e ∈ assignIdsFrom i es, strFalsy e.id = false := by
  induction es generalizing i with
  | nil => simp [assignIdsFrom]
  | cons hd tl ih =>
    intro e he
    simp only [assignIdsFrom, List.mem_cons] at he
    rcases he with he | he
    · subst he
      by_cases hf : strFalsy hd.id
      · simp [hf, strFalsy_some, elementIdString_ne_empty]
      · simp only [Bool.not_eq_true] at hf
        simp [hf]
    · exact ih (i + 1) e he

theorem assignIdsFrom_eq_self (i : Nat) (es : List Element)
    (h : ∀ e ∈ es, strFalsy e.id = false) : assignIdsFrom i es = es := by
  induction es generalizing i with
  | nil => rfl
  | cons hd tl ih =>
    simp only [assignIdsFrom]
    rw [if_neg (by simp [h hd (List.mem_cons_self hd tl)]),
      ih (i + 1) fun e he => h e (List.mem_cons_of_mem _ he)]

theorem assignIdsFrom_map_of_ignore_id {β : Type} (f : Element → β)
    (hf : ∀ (e : Element) (v : Option String), f { e with id := v } = f e) :
    ∀ (i : Nat) (es : List Element), (assignIdsFrom i es).map f = es.map f := by
  intro i es
  induction es generalizing i with
  | nil => rfl
  | cons hd tl ih =>
    simp only [assignIdsFrom, List.map_cons, ih (i + 1)]
    by_cases hfa : strFalsy hd.id
    · simp [hfa, hf]
    · simp [hfa]

/-! ## Helper lemmas: the positioning loop -/

theorem posLoop_length (src tgt : List String) :
    ∀ (es : List Element) (counts : Int → Nat),
      (posLoop src tgt es counts).length = es.length := by
  intro es
  induction es with
  | nil => intro counts; rfl
  | cons e rest ih =>
    intro counts
    by_cases hf : strFalsy e.id
    · simp [posLoop, hf, ih]
    · simp [posLoop, hf, ih]

theorem posLoop_map_of_ignore_position {β : Type} (f : Element → β)
    (hf : ∀ (e : Element) (p : Option Point), f { e with position := p } = f e)
    (src tgt : List String) :
    ∀ (es : List Element) (counts : Int → Nat),
      (posLoop src tgt es counts).map f = es.map f := by
  intro es
  induction es with
  | nil => intro counts; rfl
  | cons e rest ih =>
    intro counts
    by_cases hfa : strFalsy e.id
    · simp [posLoop, hfa, ih]
    · simp [posLoop, hfa, ih, hf]

theorem posLoop_map_id (src tgt : List String) (es : List Element) (counts : Int → Nat) :
    (posLoop src tgt es counts).map (·.id) = es.map (·.id) :=
  posLoop_map_of_ignore_position (fun e => e.id) (fun _ _ => rfl) src tgt es counts

theorem countAt_cons (src tgt : List String) (l : Int) (e : Element) (es : List Element) :
    countAt src tgt l (e :: es) =
      (if strFalsy e.id = false ∧ lvlOf src tgt e = l then 1 else 0) + countAt src tgt l es := by
  simp only [countAt, List.filter_cons]
  by_cases h1 : strFalsy e.id <;> by_cases h2 : lvlOf src tgt e = l <;>
    simp [h1, h2, Nat.add_comm]

/-- Indexed characterisation of the positioning loop: the element at index
`i` keeps all its fields, and (unless its id is falsy, in which case it is
untouched) its position becomes `x = 300 * (initial count + number of earlier
same-level elements)`, `y = 200 * level`. -/
theorem posLoop_getElem? (src tgt : List String) :
    ∀ (es : List Element) (counts : Int → Nat) (i : Nat) (e : Element),
      es[i]? = some e →
      (posLoop src tgt es counts)[i]? = some
        (if strFalsy e.id then e
         else { e with position := some (Point.mk
                  (get_x_position (counts (lvlOf src tgt e) +
                      countAt src tgt (lvlOf src tgt e) (es.take i)))
                  (get_y_position (lvlOf src tgt e))) }) := by
  intro es
  induction es with
  | nil => intro counts i e h; simp at h
  | cons hd tl ih =>
    intro counts i e h
    cases i with
    | zero =>
      simp only [List.getElem?_cons_zero, Option.some_inj] at h
      subst h
      by_cases hf : strFalsy hd.id
      · simp [posLoop, hf]
      · simp [posLoop, hf, countAt, lvlOf]
    | succ i =>
      simp only [List.getElem?_cons_succ] at h
      by_cases hf : strFalsy hd.id
      · simp only [posLoop, hf, if_true, List.getElem?_cons_succ]
        rw [ih counts i e h, List.take_succ_cons, countAt_cons]
        simp [hf]
      · simp only [Bool.not_eq_true] at hf
        simp only [posLoop, hf, Bool.false_eq_true, if_false, List.getElem?_cons_succ]
        rw [ih _ i e h, List.take_succ_cons, countAt_cons]
        by_cases hfe : strFalsy e.id
        · simp [hfe]
        · simp only [Bool.not_eq_true] at hfe
          have harith :
              (fun l => if l = levelIndex src tgt (hd.id.getD "") then counts l + 1 else counts l)
                  (lvlOf src tgt e) +
                countAt src tgt (lvlOf src tgt e) (tl.take i) =
              counts (lvlOf src tgt e) +
                ((if strFalsy hd.id = false ∧ lvlOf src tgt hd = lvlOf src tgt e then 1 else 0) +
                  countAt src tgt (lvlOf src tgt e) (tl.take i)) := by
            simp only [lvlOf, hf, true_and]
            by_cases heq : levelIndex src tgt (hd.id.getD "") = levelIndex src tgt (e.id.getD "")
            · simp [heq]
              omega
            · have h1 : ¬ levelIndex src tgt (e.id.getD "") = levelIndex src tgt (hd.id.getD "") :=
                fun hc => heq hc.symm
              simp [heq, h1]
          simp only [hfe, Bool.false_eq_true, if_false]
          rw [← harith]

theorem posLoop_id_not_falsy (src tgt : List String) :
    ∀ (es : List Element), (∀ e ∈ es, strFalsy e.id = false) →
      ∀ (counts : Int → Nat) (e : Element),
        e ∈ posLoop src tgt es counts → strFalsy e.id = false := by
  intro es
  induction es with
  | nil => intro _ counts e he; simp [posLoop] at he
  | cons hd tl ih =>
    intro h counts e he
    have hhd := h hd (List.mem_cons_self hd tl)
    have htl := fun x hx => h x (List.mem_cons_of_mem _ hx)
    simp only [posLoop, hhd, Bool.false_eq_true, if_false, List.mem_cons] at he
    rcases he with he | he
    · subst he; exact hhd
    · exact ih htl _ e he

/-- Applying the positioning loop to its own output with the same source and
target sets and the same initial counts reproduces the output: the freshly
computed positions overwrite the stored ones with identical values. -/
theorem posLoop_posLoop (src tgt : List String) :
    ∀ (es : List Element) (counts : Int → Nat),
      posLoop src tgt (posLoop src tgt es counts) counts = posLoop src tgt es counts := by
  intro es
  induction es with
  | nil => intro counts; rfl
  | cons e rest ih =>
    intro counts
    by_cases hf : strFalsy e.id
    · simp only [posLoop, hf, if_true]
      simp only [posLoop, hf, if_true, ih]
    · simp only [Bool.not_eq_true] at hf
      simp only [posLoop, hf, Bool.false_eq_true, if_false]
      simp [ih]

theorem elementMapOf_congr {es es2 : List Element}
    (h : es.map (·.id) = es2.map (·.id)) : elementMapOf es = elementMapOf es2 := by
  have h1 : ∀ l : List Element, elementMapOf l = (l.map (·.id)).filterMap (fun o => o) := by
    intro l
    rw [List.filterMap_map]
    rfl
  rw [h1, h1, h]

theorem validRelsOf_idem (es : List Element) (rels : List Rel) :
    validRelsOf es (validRelsOf es rels) = validRelsOf es rels := by
  simp [validRelsOf, List.filter_filter]

/-- Equation for the main branch of `apply_positioning`: a dict input with a
nonempty elements list. -/
theorem apply_positioning_dict_eq (obj : DiagramObj) (es : List Element)
    (helems : obj.elements = some es) (hne : es.isEmpty = false) :
    apply_positioning (.dict obj) =
      .dict { obj with
              elements := some
                (posLoop (srcOf (validRelsOf (assignIds es) (obj.relationships.getD [])))
                  (tgtOf (validRelsOf (assignIds es) (obj.relationships.getD [])))
                  (assignIds es) (fun _ => 0)),
              relationships :=
                some (validRelsOf (assignIds es) (obj.relationships.getD [])) } := by
  have hfalsy : obj.falsy = false := by simp [DiagramObj.falsy, helems]
  simp [apply_positioning, hfalsy, helems, hne]

/-- Equation for the degenerate branch: a non-falsy dict whose elements are
missing or empty. -/
theorem apply_positioning_dict_empty (obj : DiagramObj)
    (hfalsy : obj.falsy = false) (hempty : (obj.elements.getD []).isEmpty = true) :
    apply_positioning (.dict obj) = .dict { obj with elements := some [] } := by
  simp [apply_positioning, hfalsy, hempty]

theorem isEmpty_congr_of_length {α β : Type} {l1 : List α} {l2 : List β}
    (h : l1.length = l2.length) : l1.isEmpty = l2.isEmpty := by
  cases l1 <;> cases l2 <;> simp_all

theorem apply_positioning_idem_main (obj : DiagramObj) (es : List Element)
    (helems : obj.elements = some es) (hne : es.isEmpty = false) :
    apply_positioning (apply_positioning (.dict obj)) = apply_positioning (.dict obj) := by
  rw [apply_positioning_dict_eq obj es helems hne]
  generalize hrep : assignIds es = rep
  generalize hrels : obj.relationships.getD [] = rels
  generalize hvr : validRelsOf rep rels = vr
  generalize hout : posLoop (srcOf vr) (tgtOf vr) rep (fun _ => 0) = out
  have hfal : ∀ e ∈ rep, strFalsy e.id = false := by
    rw [← hrep]
    exact fun e he => assignIdsFrom_id_not_falsy 0 es e he
  have houtfal : ∀ e ∈ out, strFalsy e.id = false := by
    rw [← hout]
    exact posLoop_id_not_falsy _ _ rep hfal _
  have hassign : assignIds out = out := assignIdsFrom_eq_self 0 out houtfal
  have hmap : elementMapOf out = elementMapOf rep := by
    rw [← hout]
    exact elementMapOf_congr (posLoop_map_id _ _ rep _)
  have hvr2 : validRelsOf out vr = vr := by
    show vr.filter (relValid (elementMapOf out)) = vr
    rw [hmap, ← hvr]
    exact validRelsOf_idem rep rels
  have hout2 : posLoop (srcOf vr) (tgtOf vr) out (fun _ => 0) = out := by
    rw [← hout]
    exact posLoop_posLoop _ _ rep _
  have hlen : out.length = es.length := by
    rw [← hout, posLoop_length, ← hrep]
    exact assignIdsFrom_length 0 es
  have hne2 : out.isEmpty = false := by
    rw [isEmpty_congr_of_length hlen]
    exact hne
  rw [apply_positioning_dict_eq _ out rfl hne2]
  simp [hassign, hvr2, hout2]

/-- C7: layout is deterministic (it is a pure function of its input) and
idempotent: `apply_positioning (apply_positioning d) = apply_positioning d`
for every diagram `d`; the second pass keeps the element membership and
overwrites every position with the value it already has. -/
theorem C7_layout_idempotent (d : DiagramData) :
    apply_positioning (apply_positioning d) = apply_positioning d := by
  cases d with
  | invalid t =>
    cases t
    · have h : apply_positioning (.invalid false) = defaultDiagram := by
        simp [apply_positioning]
      rw [h]
      decide
    · have h : apply_positioning (.invalid true) = .invalid true := by
        simp [apply_positioning]
      rw [h, h]
  | dict obj =>
    by_cases hfalsy : obj.falsy
    · have h : apply_positioning (.dict obj) = defaultDiagram := by
        simp [apply_positioning, hfalsy]
      rw [h]
      decide
    · simp only [Bool.not_eq_true] at hfalsy
      cases hE : (obj.elements.getD []).isEmpty with
      | false =>
        cases helems : obj.elements with
        | none => rw [helems] at hE; simp at hE
        | some es =>
          rw [helems] at hE
          simp only [Option.getD_some] at hE
          exact apply_positioning_idem_main obj es helems hE
      | true =>
        rw [apply_positioning_dict_empty obj hfalsy hE,
          apply_positioning_dict_empty _ (by simp [DiagramObj.falsy]) (by simp)]

/-- C1 counterexample: on the spec's own scenario (`elements=[a,b]`,
`relationships=[a→b]`) the code places `a` at `(0, 200)` and the sink `b` at
`(0, -200)`, not at `(0, 0)` as the claim's `level(b)=0`, `b.y=0` requires. -/
theorem C1_counterexample :
    (apply_positioning scenarioAB).getElements.map (·.position) =
      [some ⟨0, 200⟩, some ⟨0, -200⟩] ∧
    ¬ (apply_positioning scenarioAB).getElements.map (·.position) =
      [some ⟨0, 200⟩, some ⟨0, 0⟩] := by
  decide

/-- C1 (amended): the level assignment is a three-bucket in/out-degree
classification, not a longest-path layering: a node that is only a target
gets level −1, a node that is only a source gets level 1, every other node
(both or neither) gets level 0; each positioned element's `y` is
`200 * level`.  For the scenario `[a, b]` with `a→b`: level(a)=1,
level(b)=−1, positions `a=(0,200)`, `b=(0,−200)`. -/
theorem C1_level_assignment_amended :
    (∀ (src tgt : List String) (id : String),
        levelIndex src tgt id =
          if tgt.contains id ∧ ¬ src.contains id then -1
          else if src.contains id ∧ ¬ tgt.contains id then 1
          else 0) ∧
    (∀ (src tgt : List String) (es : List Element) (counts : Int → Nat) (i : Nat)
        (e : Element), es[i]? = some e → strFalsy e.id = false →
        ∃ e2 : Element, (posLoop src tgt es counts)[i]? = some e2 ∧ e2.id = e.id ∧
          ∃ x : Int, e2.position = some ⟨x, 200 * levelIndex src tgt (e.id.getD "")⟩) ∧
    levelIndex ["a"] ["b"] "a" = 1 ∧ levelIndex ["a"] ["b"] "b" = -1 ∧
    apply_positioning scenarioAB =
      .dict { elements := some [{ id := some "a", position := some ⟨0, 200⟩ },
                                { id := some "b", position := some ⟨0, -200⟩ }],
              relationships := some [{ source_id := some "a", target_id := some "b" }] } := by
  refine ⟨?_, ?_, by decide, by decide, by decide⟩
  · intro src tgt id
    by_cases h1 : id ∈ tgt <;> by_cases h2 : id ∈ src <;>
      simp [levelIndex, h1, h2]
  · intro src tgt es counts i e h hfe
    refine ⟨_, posLoop_getElem? src tgt es counts i e h, ?_, ?_⟩
    · simp [hfe]
    · refine ⟨get_x_position (counts (lvlOf src tgt e) +
        countAt src tgt (lvlOf src tgt e) (es.take i)), ?_⟩
      simp [hfe, get_y_position, BASE_Y, Y_SPACING, lvlOf, mul_comm]

/-- C1 witness: the amended per-element statement applied to the concrete
one-element list `[{id := "b"}]` with `src = ["a"]`, `tgt = ["b"]`. -/
theorem C1_witness :
    ∃ e2 : Element,
      (posLoop ["a"] ["b"] [{ id := some "b" }] (fun _ => 0))[0]? = some e2 ∧
      e2.id = some "b" ∧
      ∃ x : Int, e2.position = some ⟨x, 200 * levelIndex ["a"] ["b"] "b"⟩ :=
  C1_level_assignment_amended.2.1 ["a"] ["b"] [{ id := some "b" }] (fun _ => 0) 0
    { id := some "b" } rfl (by decide)

/-- C2 counterexample: for the diagram with sources `a, b, c` feeding sink
`d` (levels of sizes 3 and 1), the code puts `d` at `x = 0`; the claimed
centering offset would put it at `x = 300`, the average of the size-3
level's x-coordinates `0, 300, 600`. -/
theorem C2_counterexample :
    (apply_positioning scenario31).getElements.map (·.position) =
      [some ⟨0, 200⟩, some ⟨300, 200⟩, some ⟨600, 200⟩, some ⟨0, -200⟩] ∧
    ((0 : Int) + 300 + 600) / 3 = 300 ∧
    ¬ (apply_positioning scenario31).getElements.map (·.position) =
      [some ⟨0, 200⟩, some ⟨300, 200⟩, some ⟨600, 200⟩, some ⟨300, -200⟩] := by
  decide

/-- C2 (amended): layout assigns each positioned element
`x = index_within_level * 300` with no per-level centering offset (levels
are left-aligned, not centred on the widest level); in the sizes-1-and-3
scenario the single element gets `x = 0`, not the size-3 level's average
`x` of 300. -/
theorem C2_x_positions_amended :
    (∀ (src tgt : List String) (es : List Element) (i : Nat) (e : Element),
        es[i]? = some e → strFalsy e.id = false →
        (posLoop src tgt es (fun _ => 0))[i]? = some
          { e with position := some (Point.mk
              ((countAt src tgt (lvlOf src tgt e) (es.take i) : Int) * 300)
              (get_y_position (lvlOf src tgt e))) }) ∧
    (apply_positioning scenario31).getElements.map (·.position) =
      [some ⟨0, 200⟩, some ⟨300, 200⟩, some ⟨600, 200⟩, some ⟨0, -200⟩] := by
  refine ⟨?_, by decide⟩
  intro src tgt es i e h hfe
  rw [posLoop_getElem? src tgt es (fun _ => 0) i e h]
  simp [hfe, get_x_position, ELEMENT_X_SPACING]

/-- C3 counterexample: a truthy mapping with no `elements` key keeps its
unknown keys and gains only `elements = []` (no `diagram_type`, no
`relationships`), and a truthy non-mapping is returned unchanged — neither
result is the claimed empty well-formed diagram. -/
theorem C3_counterexample :
    isEmptyWellFormed (apply_positioning (.dict
      { diagram_type := none, elements := none, relationships := none, extra := true })) =
      false ∧
    isEmptyWellFormed (apply_positioning (.invalid true)) = false := by
  decide

/-- C3 (amended): the entry point is total (never raises); a falsy input
(`None`, an empty mapping, or any other falsy non-mapping) yields the
default empty well-formed diagram; a truthy non-mapping is returned
unchanged; a non-falsy mapping without an `elements` key is returned with
`elements` set to `[]` and every other key untouched. -/
theorem C3_malformed_handling_amended :
    apply_positioning (.invalid false) = defaultDiagram ∧
    apply_positioning (.invalid true) = .invalid true ∧
    isEmptyWellFormed defaultDiagram = true ∧
    (∀ obj : DiagramObj, obj.falsy = true → apply_positioning (.dict obj) = defaultDiagram) ∧
    (∀ obj : DiagramObj, obj.falsy = false → obj.elements = none →
      apply_positioning (.dict obj) = .dict { obj with elements := some [] }) := by
  refine ⟨by decide, by decide, by decide, ?_, ?_⟩
  · intro obj h
    simp [apply_positioning, h]
  · intro obj h1 h2
    apply apply_positioning_dict_empty obj h1
    simp [h2]

/-- C3 witness: the amended mapping-level statements applied to an empty
mapping and to a mapping carrying only a `diagram_type` key. -/
theorem C3_witness :
    apply_positioning (.dict
      { diagram_type := none, elements := none, relationships := none, extra := false }) =
      defaultDiagram ∧
    apply_positioning (.dict
      { diagram_type := some "block", elements := none, relationships := none,
        extra := false }) =
      .dict { diagram_type := some "block", elements := some [] } :=
  ⟨C3_malformed_handling_amended.2.2.2.1 _ (by decide),
   C3_malformed_handling_amended.2.2.2.2 _ (by decide) rfl⟩

/-- C4 counterexample: an element with an unrecognized `type` (`"widget"`)
and one with no `type` pass through repair unchanged; neither is coerced to
`"block"`. -/
theorem C4_counterexample :
    (apply_positioning (.dict
      { elements :=
          some [{ id := some "a", type := some "widget" }, { id := some "b" }] })).getElements.map
      (·.type) = [some "widget", none] ∧
    some "widget" ≠ some "block" ∧ (none : Option String) ≠ some "block" := by
  decide

/-- C4 (amended): the repair/layout path never modifies element `type`
fields — absent or unrecognized types are kept as they are; no coercion to
a default type occurs. -/
theorem C4_types_unchanged_amended (d : DiagramData) :
    (apply_positioning d).getElements.map (·.type) = d.getElements.map (·.type) := by
  cases d with
  | invalid t =>
    cases t <;> simp [apply_positioning, DiagramData.getElements, defaultDiagram]
  | dict obj =>
    by_cases hfalsy : obj.falsy
    · have hE1 : obj.elements = none := by
        cases h : obj.elements with
        | none => rfl
        | some v =>
          simp only [DiagramObj.falsy, h] at hfalsy
          simp at hfalsy
      simp [apply_positioning, hfalsy, DiagramData.getElements, defaultDiagram, hE1]
    · simp only [Bool.not_eq_true] at hfalsy
      cases hE : (obj.elements.getD []).isEmpty with
      | true =>
        rw [apply_positioning_dict_empty obj hfalsy hE]
        cases hgd : obj.elements.getD [] with
        | nil => simp [DiagramData.getElements, hgd]
        | cons x xs => rw [hgd] at hE; simp at hE
      | false =>
        cases helems : obj.elements with
        | none => rw [helems] at hE; simp at hE
        | some es =>
          rw [helems] at hE
          simp only [Option.getD_some] at hE
          rw [apply_positioning_dict_eq obj es helems hE]
          simp only [DiagramData.getElements, helems, Option.getD_some]
          rw [posLoop_map_of_ignore_position (fun e => e.type) (fun _ _ => rfl)]
          exact assignIdsFrom_map_of_ignore_id (fun e => e.type) (fun _ _ => rfl) 0 es

/-- C5 counterexample: with a pre-existing id `"element-2"` at index 0 and a
missing id at index 1, repair assigns `"element-2"` again, so the resulting
ids are not unique. -/
theorem C5_counterexample :
    (assignIds [{ id := some "element-2" }, { id := none }]).map (·.id) =
      [some "element-2", some "element-2"] ∧
    ¬ ((assignIds [{ id := some "element-2" }, { id := none }]).map (·.id)).Nodup := by
  decide

/-- C5 (amended): repair assigns `element-<i+1>` to the element at 0-based
index `i` exactly when its id is falsy, leaves truthy ids untouched, and is
stable (idempotent) on its own output; the resulting ids are unique
provided the pre-existing truthy ids are pairwise distinct and none of them
equals `element-<j+1>` for an index `j` whose element lacks a truthy id. -/
theorem C5_assign_ids_amended :
    (∀ (es : List Element) (i : Nat) (e : Element), es[i]? = some e →
        strFalsy e.id = false → (assignIds es)[i]? = some e) ∧
    (∀ (es : List Element) (i : Nat) (e : Element), es[i]? = some e →
        strFalsy e.id = true →
        (assignIds es)[i]? = some { e with id := some ("element-" ++ toString (i + 1)) }) ∧
    (∀ es : List Element, assignIds (assignIds es) = assignIds es) ∧
    (∀ es : List Element,
        (∀ i j : Fin es.length, i ≠ j → strFalsy (es.get i).id = false →
          strFalsy (es.get j).id = false → (es.get i).id ≠ (es.get j).id) →
        (∀ i j : Fin es.length, strFalsy (es.get i).id = false →
          strFalsy (es.get j).id = true →
          (es.get i).id ≠ some ("element-" ++ toString (j.val + 1))) →
        ((assignIds es).map (·.id)).Nodup) := by
  refine ⟨?_, ?_, ?_, ?_⟩
  · intro es i e h hfe
    rw [show assignIds es = assignIdsFrom 0 es from rfl, assignIdsFrom_getElem? 0 i es e h]
    simp [hfe]
  · intro es i e h hfe
    rw [show assignIds es = assignIdsFrom 0 es from rfl, assignIdsFrom_getElem? 0 i es e h]
    simp [hfe]
  · intro es
    exact assignIdsFrom_eq_self 0 _ (assignIdsFrom_id_not_falsy 0 es)
  · intro es h1 h2
    rw [List.nodup_iff_getElem?_ne_getElem?]
    intro i j hij hjlen
    have hjlt : j < es.length := by
      rwa [List.length_map, show assignIds es = assignIdsFrom 0 es from rfl,
        assignIdsFrom_length 0 es] at hjlen
    have hilt : i < es.length := by omega
    have hei : es[i]? = some (es.get ⟨i, hilt⟩) := by
      rw [List.getElem?_eq_getElem hilt, List.get_eq_getElem]
    have hej : es[j]? = some (es.get ⟨j, hjlt⟩) := by
      rw [List.getElem?_eq_getElem hjlt, List.get_eq_getElem]
    rw [List.getElem?_map, List.getElem?_map,
      show assignIds es = assignIdsFrom 0 es from rfl,
      assignIdsFrom_getElem? 0 i es _ hei, assignIdsFrom_getElem? 0 j es _ hej]
    by_cases f1 : strFalsy (es.get ⟨i, hilt⟩).id <;>
      by_cases f2 : strFalsy (es.get ⟨j, hjlt⟩).id
    · simp only [f1, f2, if_true, Option.map_some', Ne, Option.some_inj]
      intro hEq
      have := elementIdString_injective hEq
      omega
    · simp only [Bool.not_eq_true] at f2
      simp only [f1, f2, if_true, Bool.false_eq_true, if_false, Option.map_some', Ne,
        Option.some_inj]
      intro hEq
      exact h2 ⟨j, hjlt⟩ ⟨i, hilt⟩ f2 f1 (by rw [← hEq]; simp)
    · simp only [Bool.not_eq_true] at f1
      simp only [f1, f2, if_true, Bool.false_eq_true, if_false, Option.map_some', Ne,
        Option.some_inj]
      intro hEq
      exact h2 ⟨i, hilt⟩ ⟨j, hjlt⟩ f1 f2 (by rw [hEq]; simp)
    · simp only [Bool.not_eq_true] at f1 f2
      simp only [f1, f2, Bool.false_eq_true, if_false, Option.map_some', Ne, Option.some_inj]
      intro hEq
      exact h1 ⟨i, hilt⟩ ⟨j, hjlt⟩ (by simp [Fin.mk.injEq]; omega) f1 f2 hEq

/-- C5 witness: the amended statements applied to concrete lists — a truthy
id is kept, a missing id at index 0 becomes `element-1`, repair is stable,
and the repaired ids of `[{}, {id := "x"}]` are unique. -/
theorem C5_witness :
    (assignIds [{ id := some "x" }])[0]? = some { id := some "x" } ∧
    (assignIds [{ id := none }])[0]? =
      some { id := some ("element-" ++ toString (0 + 1)) } ∧
    assignIds (assignIds [{ id := none }, { id := some "x" }]) =
      assignIds [{ id := none }, { id := some "x" }] ∧
    ((assignIds [{ id := none }, { id := some "x" }]).map (·.id)).Nodup :=
  ⟨C5_assign_ids_amended.1 [{ id := some "x" }] 0 { id := some "x" } rfl (by decide),
   C5_assign_ids_amended.2.1 [{ id := none }] 0 { id := none } rfl (by decide),
   C5_assign_ids_amended.2.2.1 [{ id := none }, { id := some "x" }],
   C5_assign_ids_amended.2.2.2 [{ id := none }, { id := some "x" }] (by decide) (by decide)⟩

/-- C6: for every element list and relationship list, the relationship
validation (lines 78-104) keeps no relationship with a falsy endpoint id or
with an endpoint outside the element id set, and keeps survivors in their
original relative order (a sublist); moreover, through the repair entry
point on a diagram with a nonempty element list, the output relationship
sequence satisfies the same properties with respect to the output
elements' ids.  (A diagram with no elements returns early, before the
relationship filter runs.) -/
theorem C6_validate_relationships :
    (∀ (es : List Element) (rels : List Rel), ∀ r ∈ validRelsOf es rels,
        strFalsy r.source_id = false ∧ strFalsy r.target_id = false ∧
        (elementMapOf es).contains (r.source_id.getD "") = true ∧
        (elementMapOf es).contains (r.target_id.getD "") = true) ∧
    (∀ (es : List Element) (rels : List Rel), (validRelsOf es rels).Sublist rels) ∧
    (∀ (obj : DiagramObj) (es : List Element), obj.elements = some es →
      es.isEmpty = false →
      (∀ r ∈ (apply_positioning (.dict obj)).getRelationships,
          strFalsy r.source_id = false ∧ strFalsy r.target_id = false ∧
          (elementMapOf ((apply_positioning (.dict obj)).getElements)).contains
            (r.source_id.getD "") = true ∧
          (elementMapOf ((apply_positioning (.dict obj)).getElements)).contains
            (r.target_id.getD "") = true) ∧
      ((apply_positioning (.dict obj)).getRelationships).Sublist
        (obj.relationships.getD [])) := by
  have hop : ∀ (es : List Element) (rels : List Rel), ∀ r ∈ validRelsOf es rels,
      strFalsy r.source_id = false ∧ strFalsy r.target_id = false ∧
      (elementMapOf es).contains (r.source_id.getD "") = true ∧
      (elementMapOf es).contains (r.target_id.getD "") = true := by
    intro es rels r hr
    simp only [validRelsOf, List.mem_filter] at hr
    have h2 := hr.2
    simp only [relValid, Bool.and_eq_true, Bool.not_eq_true'] at h2
    obtain ⟨⟨⟨hA, hB⟩, hC⟩, hD⟩ := h2
    exact ⟨hA, hB, hC, hD⟩
  refine ⟨hop, fun es rels => List.filter_sublist rels, ?_⟩
  intro obj es helems hne
  rw [apply_positioning_dict_eq obj es helems hne]
  simp only [DiagramData.getRelationships, DiagramData.getElements, Option.getD_some]
  constructor
  · intro r hr
    rw [elementMapOf_congr (posLoop_map_id _ _ (assignIds es) _)]
    exact hop (assignIds es) (obj.relationships.getD []) r hr
  · exact List.filter_sublist _

/-- C6 witness: both the operation-level statement (on a two-relationship
list where one relationship dangles) and the entry-point statement (on the
spec's scenario diagram). -/
theorem C6_witness :
    (∀ r ∈ validRelsOf [{ id := some "a" }]
        [{ source_id := some "a", target_id := some "a" },
         { source_id := some "a", target_id := some "zz" }],
        strFalsy r.source_id = false ∧ strFalsy r.target_id = false ∧
        (elementMapOf [{ id := some "a" }]).contains (r.source_id.getD "") = true ∧
        (elementMapOf [{ id := some "a" }]).contains (r.target_id.getD "") = true) ∧
    ((∀ r ∈ (apply_positioning scenarioAB).getRelationships,
        strFalsy r.source_id = false ∧ strFalsy r.target_id = false ∧
        (elementMapOf ((apply_positioning scenarioAB).getElements)).contains
          (r.source_id.getD "") = true ∧
        (elementMapOf ((apply_positioning scenarioAB).getElements)).contains
          (r.target_id.getD "") = true) ∧
      ((apply_positioning scenarioAB).getRelationships).Sublist
        [{ source_id := some "a", target_id := some "b" }]) :=
  ⟨C6_validate_relationships.1 [{ id := some "a" }]
    [{ source_id := some "a", target_id := some "a" },
     { source_id := some "a", target_id := some "zz" }],
   C6_validate_relationships.2.2
    { elements := some [{ id := some "a" }, { id := some "b" }],
      relationships := some [{ source_id := some "a", target_id := some "b" }] }
    [{ id := some "a" }, { id := some "b" }] rfl (by decide)⟩

/-- The `name` computation of the edge mapping agrees with the spec's
"`edge.data.name` or `edge.label`, in that preference order" (an absent or
empty label counting as absent). -/
theorem edgeName_eq_spec (edge : BEdge) :
    edgeName edge =
      match edge.data.bind (·.name) with
      | some nm => some nm
      | none => if edgeLabelTruthy edge then edge.label else none := by
  cases hd : edge.data with
  | none => simp [edgeName, edgeHasDataName, hd]
  | some dd =>
    cases hn : dd.name with
    | none => simp [edgeName, edgeHasDataName, edgeDataTruthy, hd, hn]
    | some nm => simp [edgeName, edgeHasDataName, edgeDataTruthy, hd, hn]

/-- C8: `optimize_diagram_json` maps a shape-(b) diagram exactly as the spec
describes, node by node and edge by edge; the second conjunct is the spec's
`properties.weight="5kg"` round-trip scenario (no residual `data` wrapper
exists in the output type at all). -/
theorem C8_normalizer_shape_b :
    (∀ (α : Type) (d : RawBDiagram α),
        optimize_diagram_json d =
          { diagram_type := "block",
            elements := (d.nodes.getD []).map spec_elementOfNode,
            relationships := (d.edges.getD []).map spec_relationOfEdge }) ∧
    optimize_diagram_json
      { nodes :=
          some [{ id := "uav-1", type := "block",
                  data := { label := some "UAV Platform", description := none,
                            properties := some [("weight", "5kg")] } }],
        edges := some [] } =
      { diagram_type := "block",
        elements :=
          [{ id := "uav-1", type := "block", name := "UAV Platform",
             description := "", properties := [("weight", "5kg")] }],
        relationships := [] } := by
  constructor
  · intro α d
    unfold optimize_diagram_json
    simp only [OptimizedDiagram.mk.injEq, true_and]
    constructor
    · apply List.map_congr_left
      intro node _
      unfold spec_elementOfNode
      simp only [OptElement.mk.injEq, true_and]
      cases hp : node.data.properties with
      | none => simp
      | some props =>
        simp only [Option.getD_some]
        apply List.filter_congr
        intro kv _
        exact Bool.or_comm _ _
    · apply List.map_congr_left
      intro edge _
      unfold spec_relationOfEdge
      simp only [OptRel.mk.injEq, true_and]
      exact edgeName_eq_spec edge
  · decide

/-- C9: in enhanced mode the IBD-extraction loop (given that every element
carrying `internal_diagram` has an id) strips the `internal_diagram` key
from each such element, sets its boolean `has_ibd` flag, and emits exactly
one IBD record per such element keyed by the element's id with the nested
nodes/edges verbatim (defaulting to empty). -/
theorem C9_ibd_extraction {ν ε : Type} (es : List (RawElement ν ε))
    (h : ∀ e ∈ es, e.internal_diagram.isSome → e.id.isSome) :
    ibdExtractLoop es = some (es.map specStripIbd, es.filterMap specIbdRecord) := by
  induction es with
  | nil => rfl
  | cons e rest ih =>
    have hrest := fun x hx hs => h x (List.mem_cons_of_mem _ hx) hs
    cases hid : e.internal_diagram with
    | none =>
      simp only [ibdExtractLoop, hid, ih hrest, Option.map_some']
      simp [specStripIbd, specIbdRecord, hid, List.filterMap_cons]
    | some idg =>
      have hsome : e.id.isSome := h e (List.mem_cons_self _ _) (by simp [hid])
      cases hide : e.id with
      | none => rw [hide] at hsome; simp at hsome
      | some pid =>
        simp only [ibdExtractLoop, hid, hide, ih hrest, Option.map_some']
        simp [specStripIbd, specIbdRecord, hid, hide, List.filterMap_cons]

/-- C9 witness: the theorem applied to a concrete two-element diagram, one
element carrying an `internal_diagram` (with `edges` absent) and one not. -/
theorem C9_witness :
    ibdExtractLoop
      ([{ id := some "flight-controller",
          internal_diagram := some { nodes := some ["cpu"], edges := none } },
        { id := some "gps" }] : List (RawElement String String)) =
      some
        ([{ id := some "flight-controller", data := some { has_ibd := some true },
            internal_diagram := none },
          { id := some "gps" }],
         [{ parent_block_id := "flight-controller", nodes := ["cpu"], edges := [] }]) :=
  C9_ibd_extraction _ (by decide)

/-- C10: `get_ibd_by_block_id` selects by `parent_block_id` alone — changing
every record's `parent_bdd_diagram_id` in any way commutes with the lookup —
and on a store holding two records with the same `parent_block_id` under
different parent diagrams it returns the first one in store order. -/
theorem C10_lookup_by_block_id_only :
    (∀ (ν ε : Type) (store : List (IBDRecord ν ε)) (bid : String)
        (f : IBDRecord ν ε → Nat),
        get_ibd_by_block_id (store.map fun r => { r with parent_bdd_diagram_id := f r }) bid =
          (get_ibd_by_block_id store bid).map
            fun r => { r with parent_bdd_diagram_id := f r }) ∧
    get_ibd_by_block_id
      ([{ id := 1, parent_bdd_diagram_id := 1, parent_block_id := "blk" },
        { id := 2, parent_bdd_diagram_id := 2, parent_block_id := "blk" }] :
        List (IBDRecord Nat Nat)) "blk" =
      some { id := 1, parent_bdd_diagram_id := 1, parent_block_id := "blk" } := by
  constructor
  · intro ν ε store bid f
    induction store with
    | nil => rfl
    | cons r rest ih =>
      by_cases hp : r.parent_block_id == bid
      · simp [get_ibd_by_block_id, List.filter_cons, hp]
      · simp only [get_ibd_by_block_id, List.filter_cons] at ih ⊢
        simp [hp, ih]
  · decide

/-- C2 witness: the amended per-element statement applied to the concrete
one-element list `[{id := "b"}]` with `src = ["a"]`, `tgt = ["b"]`. -/
theorem C2_witness :
    (posLoop ["a"] ["b"] [{ id := some "b" }] (fun _ => 0))[0]? = some
      { id := some "b", position := some (Point.mk
          ((countAt ["a"] ["b"] (lvlOf ["a"] ["b"] { id := some "b" })
            (List.take 0 [({ id := some "b" } : Element)]) : Int) * 300)
          (get_y_position (lvlOf ["a"] ["b"] { id := some "b" }))) } :=
  C2_x_positions_amended.1 ["a"] ["b"] [{ id := some "b" }] 0 { id := some "b" } rfl
    (by decide)

end SysML
